import Mathlib

/-!
Verification of the generation/parse/materialize/host pipeline of
voice_website.py against its specification.

The program is shallowly embedded: Python strings are Lean String values
(with the character-list helpers below modelling str.strip, str.split,
str.upper, str.lower and the in operator on the ASCII range that the
program uses), the filesystem is a map from directory name to an optional
list of (file name, contents) pairs, and the Flask app is a function from
request path to response.
-/

/-! ### Python string primitives -/

/-- Whitespace characters stripped by Python str.strip with no arguments
(restricted to the ASCII range used by the program). -/
def pyIsSpace (c : Char) : Bool :=
  c == ' ' || c == '\t' || c == '\n' || c == '\r' || c == '\x0b' || c == '\x0c'

/-- Python str.strip on a character list: drop whitespace from both ends. -/
def stripChars (cs : List Char) : List Char :=
  ((cs.dropWhile pyIsSpace).reverse.dropWhile pyIsSpace).reverse

/-- Python str.strip. -/
def pyStrip (s : String) : String := ⟨stripChars s.data⟩

/-- Python str.split on a newline: the list of segments between newline
characters. Mirrors Python in that empty segments are kept. -/
def splitNL : List Char → List (List Char)
  | [] => [[]]
  | c :: cs =>
    if c == '\n' then [] :: splitNL cs
    else
      match splitNL cs with
      | [] => [[c]]
      | l :: ls => (c :: l) :: ls

/-- Does the needle occur at the head of the haystack? -/
def charsLeadWith : List Char → List Char → Bool
  | [], _ => true
  | _ :: _, [] => false
  | a :: as, b :: bs => a == b && charsLeadWith as bs

/-- Python substring containment (the in operator) on character lists. -/
def charsContain (needle : List Char) : List Char → Bool
  | [] => charsLeadWith needle []
  | c :: cs => charsLeadWith needle (c :: cs) || charsContain needle cs

/-- Python substring containment on strings: needle in hay. -/
def strContains (hay needle : String) : Bool :=
  charsContain needle.data hay.data

/-- Python str.upper on the ASCII letters used by the section markers. -/
def upperChars (cs : List Char) : List Char := cs.map Char.toUpper

/-- Python str.upper. -/
def pyUpper (s : String) : String := ⟨upperChars s.data⟩

/-- Python str.lower on ASCII letters. -/
def pyLower (s : String) : String := ⟨s.data.map Char.toLower⟩

/-! ### Section parser (parse_code_sections)

The source keeps a dict with keys html, css, js, walks the stripped
response line by line, switches the current section whenever the
uppercased line CONTAINS one of the marker strings (a substring test, not
an exact match), stops at an END marker, appends each non-blank stripped
content line plus a newline to the current section, finally strips every
section and fails when any section is empty. The ValueError raised on
missing sections carries exactly the names of the empty keys; we model
that error channel with Except. -/

inductive SecKey | html | css | js
deriving DecidableEq

/-- The dict key of a section, as the source spells it. -/
def keyName : SecKey → String
  | .html => "html"
  | .css => "css"
  | .js => "js"

/-- The marker string the source tests for with a substring search. -/
def markerString : SecKey → String
  | .html => "---HTML---"
  | .css => "---CSS---"
  | .js => "---JS---"

/-- The marker test of the source: marker in line.upper(). The line passed
in is already stripped, as in the source. -/
def hasMarker (line : List Char) (marker : String) : Bool :=
  charsContain marker.data (upperChars line)

/-- What one stripped line does to the parser state, following the
elif chain of the source in order: html, css, js markers switch the
current section, the END marker stops the scan, anything else is content. -/
inductive LineClass
  | marker (k : SecKey)
  | ending
  | content
deriving DecidableEq

/-- The elif chain of parse_code_sections on one stripped line. -/
def classifyLine (line : List Char) : LineClass :=
  if hasMarker line "---HTML---" then .marker .html
  else if hasMarker line "---CSS---" then .marker .css
  else if hasMarker line "---JS---" then .marker .js
  else if hasMarker line "---END---" then .ending
  else .content

/-- The mutable sections dict of the source, as three character lists. -/
structure SecAcc where
  html : List Char
  css : List Char
  js : List Char
deriving DecidableEq

/-- Read one key of the accumulator. -/
def SecAcc.get (a : SecAcc) : SecKey → List Char
  | .html => a.html
  | .css => a.css
  | .js => a.js

/-- sections[current] += line + a newline. -/
def SecAcc.add (a : SecAcc) (k : SecKey) (l : List Char) : SecAcc :=
  match k with
  | .html => { a with html := a.html ++ l ++ ['\n'] }
  | .css => { a with css := a.css ++ l ++ ['\n'] }
  | .js => { a with js := a.js ++ l ++ ['\n'] }

/-- The for loop of parse_code_sections: each line is stripped, marker
lines switch the current section, the END marker breaks, and a non-blank
content line is appended (plus newline) to the current section if any. -/
def sectionLoop : List (List Char) → Option SecKey → SecAcc → SecAcc
  | [], _, acc => acc
  | l :: ls, cur, acc =>
    let line := stripChars l
    match classifyLine line with
    | .marker k => sectionLoop ls (some k) acc
    | .ending => acc
    | .content =>
      match cur with
      | some k =>
        if line.isEmpty then sectionLoop ls cur acc
        else sectionLoop ls cur (acc.add k line)
      | none => sectionLoop ls cur acc

/-- The accumulator after the loop: the input is stripped, split on
newlines, and scanned with no current section and empty sections. -/
def sectionsAfterLoop (code_text : String) : SecAcc :=
  sectionLoop (splitNL (stripChars code_text.data)) none ⟨[], [], []⟩

/-- The parsed artifact: the three sections of the dict, as strings. -/
structure Sections where
  html : String
  css : String
  js : String
deriving DecidableEq

/-- Read one key of a parsed artifact. -/
def Sections.val (s : Sections) : SecKey → String
  | .html => s.html
  | .css => s.css
  | .js => s.js

/-- The sections dict after the final per-section strip of the source. -/
def finalSections (code_text : String) : Sections :=
  let a := sectionsAfterLoop code_text
  ⟨⟨stripChars a.html⟩, ⟨stripChars a.css⟩, ⟨stripChars a.js⟩⟩

/-- The keys with empty values, in dict order html, css, js: the list the
source interpolates into its missing-sections ValueError message. -/
def missingKeys (s : Sections) : List String :=
  (if s.html = "" then [keyName .html] else []) ++
  (if s.css = "" then [keyName .css] else []) ++
  (if s.js = "" then [keyName .js] else [])

/-- parse_code_sections: run the loop, strip each section, and fail with
the names of the empty sections when not all are non-empty. The source
raises (and then catches and reports) a ValueError naming the missing
keys; Except carries that error value. -/
def parse_code_sections (code_text : String) : Except (List String) Sections :=
  let s := finalSections code_text
  if s.html = "" ∨ s.css = "" ∨ s.js = "" then .error (missingKeys s)
  else .ok s

/-! ### Fused-mode generation result (generate_website)

generate_website asks for one complete HTML file and returns a dict with
the single key html holding the raw response text, with no validation of
the content: there is no emptiness check anywhere on this path. The keys
css and js are simply absent; save_website_files only ever reads html. -/

/-- The dict returned by generate_website on success: the whole raw
response under the key html, nothing else. -/
def generate_website_artifact (content : String) : Sections :=
  ⟨content, "", ""⟩

/-! ### Artifact materializer (save_website_files)

The filesystem is modelled as a map from directory name to an optional
list of (file name, contents) pairs. save_website_files returns False and
no folder when the sections value is absent (Python falsy: None or an
empty dict), touching nothing; otherwise it removes any existing
directory named generated_site_<iteration>, recreates it, and writes the
single file index.html holding the html section. The remove/recreate/
write sequence leaves the directory holding exactly that one file. -/

def FS := String → Option (List (String × String))

/-- A filesystem with no site directories. -/
def emptyFS : FS := fun _ => none

/-- The f-string generated_site_<iteration> of the source. -/
def site_folder_name (iteration : Nat) : String :=
  "generated_site_" ++ Nat.repr iteration

/-- The (success, site_folder) pair returned by save_website_files,
together with the filesystem after the call. -/
structure SaveResult where
  success : Bool
  folder : Option String
  fs : FS

/-- save_website_files. -/
def save_website_files (code_sections : Option Sections) (iteration : Nat)
    (fs : FS) : SaveResult :=
  match code_sections with
  | none => ⟨false, none, fs⟩
  | some s =>
    let folder := site_folder_name iteration
    ⟨true, some folder,
      fun name => if name = folder then some [("index.html", s.html)] else fs name⟩

/-! ### Ephemeral host (create_flask_app)

The Flask app registers exactly one route, the root path. A root request
returns the contents of index.html in the site folder when the file
exists. When the file is missing, send_from_directory raises the
werkzeug NotFound exception, not FileNotFoundError, so the except
FileNotFoundError branch that would return the fixed fallback body is
dead code; the generic except Exception branch answers instead, with the
string Error serving website: followed by the text of the NotFound
exception. A request to any other path hits no registered route, so
Flask answers with its standard 404 not-found error response, modelled
as notFound. -/

inductive HttpResponse
  | ok (body : String)
  | fallback (body : String)
  | errorText (body : String)
  | notFound
deriving DecidableEq

/-- The fixed fallback body of the dead except FileNotFoundError branch
of the root route. -/
def fallbackMessage : String :=
  "Website not generated yet. Please try generating one first."

/-- The text of the werkzeug NotFound exception that send_from_directory
raises for a missing file (werkzeug is an external library; this is its
standard 404 description, as str renders the exception). -/
def notFoundText : String :=
  "404 Not Found: The requested URL was not found on the server. If you entered the URL manually please check your spelling and try again."

/-- Look a file up inside a directory of the modelled filesystem. -/
def lookupFile (fs : FS) (folder file : String) : Option String :=
  match fs folder with
  | none => none
  | some files => files.lookup file

/-- create_flask_app, as the request-path to response function of the app
it builds over a given filesystem. A missing index.html at the root path
lands in the generic exception handler, never in the fallback branch. -/
def create_flask_app (site_folder : String) (fs : FS) (path : String) :
    HttpResponse :=
  if path = "/" then
    match lookupFile fs site_folder "index.html" with
    | some content => .ok content
    | none => .errorText ("Error serving website: " ++ notFoundText)
  else .notFound

/-! ### Iteration controller (main)

After a successful iteration the loop asks for another website: an answer
containing yes (case-insensitive) increments the iteration counter and
loops back to the command prompt, any other answer or no answer ends the
session. After a failed iteration the loop asks to try again: no answer
or an answer containing no ends the session, any other answer loops back
to the command prompt with the iteration counter unchanged. The port of
iteration i is port_start + i - 1 with port_start 5000. -/

/-- The substring test yes in retry.lower() of the source. -/
def containsYes (r : String) : Bool := charsContain "yes".data (pyLower r).data

/-- The substring test no in retry.lower() of the source. -/
def containsNo (r : String) : Bool := charsContain "no".data (pyLower r).data

/-- Where the loop goes after a continue prompt. -/
inductive NextState
  | awaitingCommand (iteration : Nat)
  | sessionEnd
deriving DecidableEq

/-- The continue prompt after a successful iteration (the generate
another website question). -/
def continue_after_success (iteration : Nat) (retry : Option String) :
    NextState :=
  match retry with
  | some r => if containsYes r then .awaitingCommand (iteration + 1) else .sessionEnd
  | none => .sessionEnd

/-- The retry prompt after a failed iteration (the try again question). -/
def continue_after_failure (iteration : Nat) (retry : Option String) :
    NextState :=
  match retry with
  | none => .sessionEnd
  | some r => if containsNo r then .sessionEnd else .awaitingCommand iteration

/-- The port of an iteration: port_start + iteration - 1. -/
def port_for (iteration : Nat) : Nat := 5000 + iteration - 1

/-! ### Decimal representation

Nat.repr is fuel-based; decDigits is the same decimal digit list by
well-founded recursion, used to reason about site folder names. -/

/-- The decimal digit characters of a number, most significant first. -/
def decDigits (n : Nat) : List Char :=
  if _h : n < 10 then [Nat.digitChar n]
  else decDigits (n / 10) ++ [Nat.digitChar (n % 10)]
decreasing_by exact Nat.div_lt_self (by omega) (by omega)

/-- The numeric value of a decimal digit character. -/
def digitVal (c : Char) : Nat := c.toNat - 48

/-- The numeric value of a decimal digit string. -/
def digitsVal (cs : List Char) : Nat :=
  cs.foldl (fun a c => a * 10 + digitVal c) 0

/-! ### Reference reading of the parser

Used to state what the parser actually returns per section: the stripped
non-blank content lines of each section, in order, under the same marker
discipline as the source loop. Collecting a list of lines (rather than
accumulating one string) gives an independent formulation to compare the
loop against. -/

/-- The stripped non-blank content lines credited to one key. -/
def specCollect : List (List Char) → Option SecKey → SecKey → List (List Char)
  | [], _, _ => []
  | l :: ls, cur, k =>
    match classifyLine (stripChars l) with
    | .marker k2 => specCollect ls (some k2) k
    | .ending => []
    | .content =>
      match cur with
      | some k2 =>
        if (stripChars l).isEmpty then specCollect ls cur k
        else if k2 = k then stripChars l :: specCollect ls cur k
        else specCollect ls cur k
      | none => specCollect ls cur k

/-- The stripped non-blank lines of the section of one key of a raw
response. -/
def specSectionLines (t : String) (k : SecKey) : List (List Char) :=
  specCollect (splitNL (stripChars t.data)) none k

/-- Each line followed by a newline, concatenated: the shape of the string
the source accumulates for one section. -/
def joinLines (ls : List (List Char)) : List Char :=
  (ls.map (fun l => l ++ ['\n'])).flatten

/-- Lines joined with single newlines between them. -/
def joinNLSep : List (List Char) → List Char
  | [] => []
  | [l] => l
  | l :: ls => l ++ '\n' :: joinNLSep ls

/-! ### Concrete data used by counterexamples and witnesses -/

/-- A split artifact with non-empty markup, style and behavior blocks. -/
def bakeryArtifact : Sections :=
  ⟨"<h1>Bakery</h1>", "body.main color red", "console.log(1)"⟩

/-- A first concrete artifact. -/
def firstArtifact : Sections := ⟨"<p>first</p>", "a", "b"⟩

/-- A second, different concrete artifact. -/
def secondArtifact : Sections := ⟨"<p>second</p>", "c", "d"⟩

/-- A filesystem holding the materialized site of iteration 1. -/
def siteFS : FS := (save_website_files (some bakeryArtifact) 1 emptyFS).fs

/-! ### Helper lemmas -/

theorem SecAcc.get_add_self (a : SecAcc) (k : SecKey) (l : List Char) :
    (a.add k l).get k = a.get k ++ l ++ ['\n'] := by
  cases k <;> rfl

theorem SecAcc.get_add_ne (a : SecAcc) (k k2 : SecKey) (l : List Char)
    (h : k2 ≠ k) : (a.add k2 l).get k = a.get k := by
  cases k <;> cases k2 <;> first | rfl | exact absurd rfl h

theorem joinLines_nil : joinLines [] = [] := rfl

theorem joinLines_cons (l : List Char) (ls : List (List Char)) :
    joinLines (l :: ls) = (l ++ ['\n']) ++ joinLines ls := by
  simp [joinLines]

theorem sectionLoop_get (k : SecKey) :
    ∀ (ls : List (List Char)) (cur : Option SecKey) (acc : SecAcc),
      (sectionLoop ls cur acc).get k =
        acc.get k ++ joinLines (specCollect ls cur k) := by
  intro ls
  induction ls with
  | nil =>
    intro cur acc
    simp [sectionLoop, specCollect, joinLines]
  | cons l ls ih =>
    intro cur acc
    cases hc : classifyLine (stripChars l) with
    | marker k2 =>
      simp only [sectionLoop, specCollect, hc]
      exact ih (some k2) acc
    | ending =>
      simp [sectionLoop, specCollect, hc, joinLines]
    | content =>
      cases cur with
      | none =>
        simp only [sectionLoop, specCollect, hc]
        exact ih none acc
      | some k2 =>
        by_cases hb : (stripChars l).isEmpty
        · simp only [sectionLoop, specCollect, hc, hb, if_true]
          exact ih (some k2) acc
        · by_cases hk : k2 = k
          · subst hk
            simp only [sectionLoop, specCollect, hc, hb, if_false,
              Bool.false_eq_true, if_true, ite_self, reduceIte]
            rw [ih (some k2) (acc.add k2 (stripChars l)), joinLines_cons,
              SecAcc.get_add_self]
            simp [List.append_assoc]
          · simp only [sectionLoop, specCollect, hc, hb, if_neg hk,
              Bool.false_eq_true, reduceIte]
            rw [ih (some k2) (acc.add k2 (stripChars l)),
              SecAcc.get_add_ne acc k k2 _ hk]

theorem sectionsAfterLoop_get (t : String) (k : SecKey) :
    (sectionsAfterLoop t).get k = joinLines (specSectionLines t k) := by
  unfold sectionsAfterLoop specSectionLines
  rw [sectionLoop_get]
  cases k <;> simp [SecAcc.get]

theorem stripChars_append_space (xs : List Char) (c : Char)
    (hc : pyIsSpace c = true) : stripChars (xs ++ [c]) = stripChars xs := by
  unfold stripChars
  rw [List.dropWhile_append]
  by_cases h : (xs.dropWhile pyIsSpace).isEmpty
  · have hx : List.dropWhile pyIsSpace xs = [] := by
      simpa using h
    simp only [h, if_true, hx]
    simp [List.dropWhile, hc]
  · simp only [h, if_false, Bool.false_eq_true, reduceIte]
    rw [List.reverse_append]
    simp [List.dropWhile, hc]

theorem joinLines_cons_eq (l : List Char) (ls : List (List Char)) :
    joinLines (l :: ls) = joinNLSep (l :: ls) ++ ['\n'] := by
  induction ls generalizing l with
  | nil => simp [joinLines, joinNLSep]
  | cons l2 ls ih =>
    rw [joinLines_cons, ih l2]
    simp [joinNLSep, List.append_assoc]

theorem stripChars_joinLines (ls : List (List Char)) :
    stripChars (joinLines ls) = stripChars (joinNLSep ls) := by
  cases ls with
  | nil => rfl
  | cons l ls =>
    rw [joinLines_cons_eq, stripChars_append_space _ _ (by decide)]

theorem specCollect_mem (k : SecKey) :
    ∀ (ls : List (List Char)) (cur : Option SecKey) (l : List Char),
      l ∈ specCollect ls cur k →
        l ≠ [] ∧ ∃ l0 ∈ ls, l = stripChars l0 := by
  intro ls
  induction ls with
  | nil => intro cur l h; simp [specCollect] at h
  | cons l1 ls ih =>
    intro cur l h
    have perpetuate : ∀ cur2, l ∈ specCollect ls cur2 k →
        l ≠ [] ∧ ∃ l0 ∈ l1 :: ls, l = stripChars l0 := by
      intro cur2 h2
      obtain ⟨hne, l0, hl0, he⟩ := ih cur2 l h2
      exact ⟨hne, l0, List.mem_cons_of_mem _ hl0, he⟩
    cases hc : classifyLine (stripChars l1) with
    | marker k2 =>
      simp only [specCollect, hc] at h
      exact perpetuate _ h
    | ending =>
      simp [specCollect, hc] at h
    | content =>
      cases cur with
      | none =>
        simp only [specCollect, hc] at h
        exact perpetuate _ h
      | some k2 =>
        by_cases hb : (stripChars l1).isEmpty
        · simp only [specCollect, hc, hb, if_true] at h
          exact perpetuate _ h
        · by_cases hk : k2 = k
          · subst hk
            simp only [specCollect, hc, hb, Bool.false_eq_true, reduceIte,
              ite_self] at h
            rcases List.mem_cons.mp h with he | h2
            · subst he
              refine ⟨?_, l1, List.mem_cons_self _ _, rfl⟩
              intro hnil
              rw [hnil] at hb
              exact hb rfl
            · exact perpetuate _ h2
          · simp only [specCollect, hc, hb, Bool.false_eq_true, reduceIte,
              if_neg hk] at h
            exact perpetuate _ h

theorem classifyLine_marker {line : List Char} {k : SecKey}
    (h : classifyLine line = .marker k) :
    hasMarker line (markerString k) = true := by
  unfold classifyLine at h
  by_cases h1 : hasMarker line "---HTML---" = true
  · simp only [h1, if_true] at h
    cases h
    exact h1
  · simp only [h1, Bool.false_eq_true, reduceIte] at h
    by_cases h2 : hasMarker line "---CSS---" = true
    · simp only [h2, if_true] at h
      cases h
      exact h2
    · simp only [h2, Bool.false_eq_true, reduceIte] at h
      by_cases h3 : hasMarker line "---JS---" = true
      · simp only [h3, if_true] at h
        cases h
        exact h3
      · simp only [h3, Bool.false_eq_true, reduceIte] at h
        by_cases h4 : hasMarker line "---END---" = true <;>
          simp [h4] at h

theorem specCollect_empty_of_absent (k : SecKey) :
    ∀ (ls : List (List Char)) (cur : Option SecKey),
      (∀ l ∈ ls, hasMarker (stripChars l) (markerString k) = false) →
      cur ≠ some k → specCollect ls cur k = [] := by
  intro ls
  induction ls with
  | nil => intro cur _ _; rfl
  | cons l1 ls ih =>
    intro cur habs hcur
    have habs2 : ∀ l ∈ ls, hasMarker (stripChars l) (markerString k) = false :=
      fun l hl => habs l (List.mem_cons_of_mem _ hl)
    cases hc : classifyLine (stripChars l1) with
    | marker k2 =>
      have hk2 : k2 ≠ k := by
        intro he
        subst he
        have := classifyLine_marker hc
        rw [habs l1 (List.mem_cons_self _ _)] at this
        cases this
      simp only [specCollect, hc]
      exact ih (some k2) habs2 (fun he => hk2 (Option.some.inj he))
    | ending => simp [specCollect, hc]
    | content =>
      cases cur with
      | none =>
        simp only [specCollect, hc]
        exact ih none habs2 (by simp)
      | some k2 =>
        have hk2 : k2 ≠ k := fun he => hcur (by rw [he])
        by_cases hb : (stripChars l1).isEmpty
        · simp only [specCollect, hc, hb, if_true]
          exact ih (some k2) habs2 hcur
        · simp only [specCollect, hc, hb, Bool.false_eq_true, reduceIte,
            if_neg hk2]
          exact ih (some k2) habs2 hcur

theorem mem_missingKeys (s : Sections) (name : String) :
    name ∈ missingKeys s ↔
      ((name = "html" ∧ s.html = "") ∨ (name = "css" ∧ s.css = "") ∨
        (name = "js" ∧ s.js = "")) := by
  unfold missingKeys keyName
  by_cases h1 : s.html = "" <;> by_cases h2 : s.css = "" <;>
    by_cases h3 : s.js = "" <;> simp [h1, h2, h3]

theorem finalSections_val (t : String) (k : SecKey) :
    (finalSections t).val k = ⟨stripChars ((sectionsAfterLoop t).get k)⟩ := by
  cases k <;> rfl

/-! ### Claim theorems -/

/-- C2 counterexample: a split response whose markup section has indented
lines. The claim says the value of the html key is the inner section text
trimmed only at its ends (interior indentation preserved); the parser
instead strips every line, so the result differs from the trimmed inner
text of the section. -/
theorem C2_counterexample :
    parse_code_sections
        "---HTML---\n  <div>\n    <p>hi</p>\n  </div>\n---CSS---\nbody\n---JS---\nx"
      = Except.ok ⟨"<div>\n<p>hi</p>\n</div>", "body", "x"⟩
    ∧ pyStrip "  <div>\n    <p>hi</p>\n  </div>"
        = "<div>\n    <p>hi</p>\n  </div>"
    ∧ ("<div>\n<p>hi</p>\n</div>" : String) ≠ "<div>\n    <p>hi</p>\n  </div>" := by
  refine ⟨?_, by decide, by decide⟩
  rfl

/-- C2 (amended): in split mode the value of each key is the sequence of
the stripped non-blank content lines of that section, joined with
newlines and trimmed; interior indentation and blank lines are not
preserved. Each collected line is a stripped original line and non-blank. -/
theorem C2_section_values (t : String) :
    finalSections t =
      ⟨⟨stripChars (joinNLSep (specSectionLines t .html))⟩,
       ⟨stripChars (joinNLSep (specSectionLines t .css))⟩,
       ⟨stripChars (joinNLSep (specSectionLines t .js))⟩⟩
    ∧ ∀ k : SecKey, ∀ l ∈ specSectionLines t k,
        l ≠ [] ∧ ∃ l0 ∈ splitNL (stripChars t.data), l = stripChars l0 := by
  constructor
  · have h : ∀ k : SecKey, (finalSections t).val k =
        ⟨stripChars (joinNLSep (specSectionLines t k))⟩ := by
      intro k
      rw [finalSections_val, sectionsAfterLoop_get, stripChars_joinLines]
    have hh : (finalSections t).html =
        ⟨stripChars (joinNLSep (specSectionLines t .html))⟩ := h .html
    have hc : (finalSections t).css =
        ⟨stripChars (joinNLSep (specSectionLines t .css))⟩ := h .css
    have hj : (finalSections t).js =
        ⟨stripChars (joinNLSep (specSectionLines t .js))⟩ := h .js
    rw [← hh, ← hc, ← hj]
  · intro k l hl
    exact specCollect_mem k _ none l hl

/-- C2 witness: the amended statement applied at a concrete response. -/
theorem C2_witness :
    finalSections "---HTML---\n  a\n\n  b\n---CSS---\nc\n---JS---\nd" =
      ⟨⟨stripChars (joinNLSep (specSectionLines
          "---HTML---\n  a\n\n  b\n---CSS---\nc\n---JS---\nd" .html))⟩,
       ⟨stripChars (joinNLSep (specSectionLines
          "---HTML---\n  a\n\n  b\n---CSS---\nc\n---JS---\nd" .css))⟩,
       ⟨stripChars (joinNLSep (specSectionLines
          "---HTML---\n  a\n\n  b\n---CSS---\nc\n---JS---\nd" .js))⟩⟩ :=
  (C2_section_values "---HTML---\n  a\n\n  b\n---CSS---\nc\n---JS---\nd").1

/-- C4: a raw response in which the marker of some key occurs in no line
fails with an error naming exactly the keys whose accumulated text is
empty after trimming, that key among them, and the error names nothing
but section keys. -/
theorem C4_missing_sections (t : String) (k : SecKey)
    (habs : ∀ l ∈ splitNL (stripChars t.data),
      hasMarker (stripChars l) (markerString k) = false) :
    parse_code_sections t = .error (missingKeys (finalSections t))
    ∧ keyName k ∈ missingKeys (finalSections t)
    ∧ (∀ k2 : SecKey, (keyName k2 ∈ missingKeys (finalSections t) ↔
        (finalSections t).val k2 = ""))
    ∧ ∀ name ∈ missingKeys (finalSections t),
        name = "html" ∨ name = "css" ∨ name = "js" := by
  have hcol : specSectionLines t k = [] :=
    specCollect_empty_of_absent k _ none habs (by simp)
  have hval : (finalSections t).val k = "" := by
    rw [finalSections_val, sectionsAfterLoop_get, hcol]
    decide
  refine ⟨?_, ?_, ?_, ?_⟩
  · unfold parse_code_sections
    have hcond : (finalSections t).html = "" ∨ (finalSections t).css = ""
        ∨ (finalSections t).js = "" := by
      cases k with
      | html => exact Or.inl hval
      | css => exact Or.inr (Or.inl hval)
      | js => exact Or.inr (Or.inr hval)
    rw [if_pos hcond]
  · rw [mem_missingKeys]
    cases k with
    | html => exact Or.inl ⟨rfl, hval⟩
    | css => exact Or.inr (Or.inl ⟨rfl, hval⟩)
    | js => exact Or.inr (Or.inr ⟨rfl, hval⟩)
  · intro k2
    have d1 : ("html" : String) ≠ "css" := by decide
    have d2 : ("html" : String) ≠ "js" := by decide
    have d3 : ("css" : String) ≠ "html" := by decide
    have d4 : ("css" : String) ≠ "js" := by decide
    have d5 : ("js" : String) ≠ "html" := by decide
    have d6 : ("js" : String) ≠ "css" := by decide
    cases k2 <;>
      simp [mem_missingKeys, keyName, Sections.val, d1, d2, d3, d4, d5, d6]
  · intro name hn
    rw [mem_missingKeys] at hn
    rcases hn with ⟨h, _⟩ | ⟨h, _⟩ | ⟨h, _⟩
    · exact Or.inl h
    · exact Or.inr (Or.inl h)
    · exact Or.inr (Or.inr h)

/-- C4 witness: a response with no markers at all, checked for the css
marker. -/
theorem C4_witness :
    parse_code_sections "just some prose" =
      .error (missingKeys (finalSections "just some prose"))
    ∧ keyName SecKey.css ∈ missingKeys (finalSections "just some prose")
    ∧ (∀ k2 : SecKey,
        (keyName k2 ∈ missingKeys (finalSections "just some prose") ↔
          (finalSections "just some prose").val k2 = ""))
    ∧ ∀ name ∈ missingKeys (finalSections "just some prose"),
        name = "html" ∨ name = "css" ∨ name = "js" :=
  C4_missing_sections "just some prose" SecKey.css (by decide)

/-- C1 counterexample: materializing a split artifact with non-empty
markup, style and behavior writes only the markup block to index.html;
the style block and the behavior block do not occur anywhere in the
written document, so no style region embeds the style and no script
region wraps the behavior. -/
theorem C1_counterexample :
    (save_website_files (some bakeryArtifact) 1 emptyFS).fs (site_folder_name 1)
      = some [("index.html", "<h1>Bakery</h1>")]
    ∧ strContains "<h1>Bakery</h1>" "body.main color red" = false
    ∧ strContains "<h1>Bakery</h1>" "console.log(1)" = false := by
  refine ⟨?_, by decide, by decide⟩
  simp [save_website_files, bakeryArtifact]

/-- C1 (amended): for every split artifact with all three sections
non-empty, materialize succeeds and writes the markup block alone,
verbatim, as the single document of the iteration folder; the style and
behavior blocks are not embedded. -/
theorem C1_materialize_writes_markup_only (s : Sections) (n : Nat) (fs : FS)
    (_h1 : s.html ≠ "") (_h2 : s.css ≠ "") (_h3 : s.js ≠ "") :
    (save_website_files (some s) n fs).success = true
    ∧ (save_website_files (some s) n fs).folder = some (site_folder_name n)
    ∧ (save_website_files (some s) n fs).fs (site_folder_name n)
        = some [("index.html", s.html)] := by
  refine ⟨rfl, rfl, ?_⟩
  simp [save_website_files]

/-- C1 witness: the amended statement at a concrete artifact. -/
theorem C1_witness :
    (save_website_files (some bakeryArtifact) 2 emptyFS).success = true
    ∧ (save_website_files (some bakeryArtifact) 2 emptyFS).folder
        = some (site_folder_name 2)
    ∧ (save_website_files (some bakeryArtifact) 2 emptyFS).fs (site_folder_name 2)
        = some [("index.html", bakeryArtifact.html)] :=
  C1_materialize_writes_markup_only bakeryArtifact 2 emptyFS
    (by decide) (by decide) (by decide)

/-- C3: a content line that merely mentions a marker word inside prose
does switch the open section, because the source recognizes markers with
a free substring search on each line. Here the prose line mentioning the
css marker moves the parser into the css section, so the closing div tag
of the markup lands in the css value. -/
theorem C3_substring_marker_breaks_section :
    parse_code_sections
        "---HTML---\n<div>\nsee the ---CSS--- marker note\n</div>\n---CSS---\nbody x\n---JS---\nok"
      = Except.ok ⟨"<div>", "</div>\nbody x", "ok"⟩
    ∧ strContains (pyUpper "see the ---CSS--- marker note") "---CSS---" = true := by
  exact ⟨rfl, by decide⟩

/-- C5 counterexample: an all-whitespace fused response is accepted and
materialized verbatim instead of failing with an empty-document error. -/
theorem C5_counterexample :
    pyStrip "   \n  " = ""
    ∧ (save_website_files (some (generate_website_artifact "   \n  ")) 1 emptyFS).success
        = true
    ∧ (save_website_files (some (generate_website_artifact "   \n  ")) 1 emptyFS).fs
        (site_folder_name 1) = some [("index.html", "   \n  ")] := by
  refine ⟨by decide, rfl, ?_⟩
  simp [save_website_files, generate_website_artifact]

/-- C5 (amended): in fused mode every response, whether or not it is
empty after trimming, is accepted as the single document block and
materialized verbatim; no empty-document check exists. -/
theorem C5_fused_accepts_everything (content : String) (n : Nat) (fs : FS) :
    (save_website_files (some (generate_website_artifact content)) n fs).success
      = true
    ∧ (save_website_files (some (generate_website_artifact content)) n fs).fs
        (site_folder_name n) = some [("index.html", content)] := by
  refine ⟨rfl, ?_⟩
  simp [save_website_files, generate_website_artifact]

/-- C6: materializing twice at the same iteration number leaves, at that
iteration folder, exactly the single document of the second artifact, and
leaves every other folder as it was before both calls: full replacement,
never a merge, and no residue of the first artifact. -/
theorem C6_rematerialize_replaces (a1 a2 : Sections) (n : Nat) (fs : FS) :
    (save_website_files (some a2) n
        ((save_website_files (some a1) n fs).fs)).fs (site_folder_name n)
      = some [("index.html", a2.html)]
    ∧ ∀ name, name ≠ site_folder_name n →
        (save_website_files (some a2) n
          ((save_website_files (some a1) n fs).fs)).fs name = fs name := by
  constructor
  · simp [save_website_files]
  · intro name hne
    simp [save_website_files, hne]

/-- C6 witness: both materializations at iteration 1; folder 1 holds the
second document and folder 2 is untouched. -/
theorem C6_witness :
    (save_website_files (some secondArtifact) 1
        ((save_website_files (some firstArtifact) 1 emptyFS).fs)).fs
      (site_folder_name 1) = some [("index.html", secondArtifact.html)]
    ∧ (save_website_files (some secondArtifact) 1
        ((save_website_files (some firstArtifact) 1 emptyFS).fs)).fs
      (site_folder_name 2) = emptyFS (site_folder_name 2) :=
  ⟨(C6_rematerialize_replaces firstArtifact secondArtifact 1 emptyFS).1,
   (C6_rematerialize_replaces firstArtifact secondArtifact 1 emptyFS).2
     (site_folder_name 2) (by decide)⟩

/-- C10: materializing an absent artifact (the failed-generation result)
returns failure with no site folder and leaves the filesystem exactly as
it was: no directory is deleted, created or written. -/
theorem C10_absent_artifact_no_op (n : Nat) (fs : FS) :
    save_website_files none n fs = ⟨false, none, fs⟩ := rfl

theorem toDigitsCore_eq_decDigits :
    ∀ (fuel n : Nat) (rest : List Char), n < fuel →
      Nat.toDigitsCore 10 fuel n rest = decDigits n ++ rest := by
  intro fuel
  induction fuel with
  | zero => intro n rest h; omega
  | succ f ih =>
    intro n rest h
    by_cases h0 : n / 10 = 0
    · have hn : n < 10 := by omega
      rw [decDigits]
      simp [Nat.toDigitsCore, h0, dif_pos hn, Nat.mod_eq_of_lt hn]
    · have hn : ¬ n < 10 := fun hlt => h0 (Nat.div_eq_of_lt hlt)
      have h2 : n / 10 < f := by
        have hd : n / 10 < n := Nat.div_lt_self (by omega) (by omega)
        omega
      rw [Nat.toDigitsCore]
      simp only [h0, if_false, reduceIte]
      rw [ih (n / 10) _ h2]
      conv_rhs => rw [decDigits]
      simp [dif_neg hn, List.append_assoc]

theorem repr_eq_decDigits (n : Nat) : Nat.repr n = ⟨decDigits n⟩ := by
  unfold Nat.repr Nat.toDigits
  rw [toDigitsCore_eq_decDigits (n + 1) n [] (by omega)]
  simp [List.asString]

theorem digitVal_digitChar {n : Nat} (h : n < 10) :
    digitVal (Nat.digitChar n) = n := by
  interval_cases n <;> decide

theorem digitsVal_decDigits (n : Nat) : digitsVal (decDigits n) = n := by
  induction n using decDigits.induct with
  | case1 n h =>
    rw [decDigits]
    simp [dif_pos h, digitsVal, digitVal_digitChar h]
  | case2 n h ih =>
    rw [decDigits]
    simp only [dif_neg h]
    unfold digitsVal at ih ⊢
    rw [List.foldl_append]
    simp only [List.foldl, ih]
    rw [digitVal_digitChar (Nat.mod_lt n (by omega))]
    omega

theorem decDigits_inj {n m : Nat} (h : decDigits n = decDigits m) : n = m := by
  have h2 := congrArg digitsVal h
  rwa [digitsVal_decDigits, digitsVal_decDigits] at h2

theorem site_folder_name_inj {n m : Nat}
    (h : site_folder_name n = site_folder_name m) : n = m := by
  apply decDigits_inj
  have h2 := congrArg String.data h
  simp only [site_folder_name, String.data_append, repr_eq_decDigits] at h2
  exact List.append_cancel_left h2

/-- C9: site folders of distinct iteration numbers never share a path,
and materializing at one iteration, whether it succeeds (an artifact is
present) or fails (the artifact is absent), leaves the folder of every
other iteration exactly as it was. -/
theorem C9_prior_iterations_untouched (n m : Nat) (a : Option Sections)
    (fs : FS) (h : n ≠ m) :
    site_folder_name n ≠ site_folder_name m
    ∧ (save_website_files a n fs).fs (site_folder_name m)
        = fs (site_folder_name m) := by
  have hne : site_folder_name n ≠ site_folder_name m :=
    fun he => h (site_folder_name_inj he)
  refine ⟨hne, ?_⟩
  cases a with
  | none => rfl
  | some s =>
    have hms : ¬ site_folder_name m = site_folder_name n :=
      fun he => hne he.symm
    simp [save_website_files, hms]

/-- C9 witness: materializing iteration 1 leaves the folder of iteration
2 untouched, and the two folder names differ. -/
theorem C9_witness :
    site_folder_name 1 ≠ site_folder_name 2
    ∧ (save_website_files (some firstArtifact) 1 emptyFS).fs
        (site_folder_name 2) = emptyFS (site_folder_name 2) :=
  C9_prior_iterations_untouched 1 2 (some firstArtifact) emptyFS (by decide)

/-- C7 counterexample: at the continue prompt reached after a failed
iteration, the answer maybe is not affirmative, yet the loop goes back to
the command prompt instead of ending the session as the claim requires. -/
theorem C7_counterexample :
    continue_after_failure 1 (some "maybe") = NextState.awaitingCommand 1
    ∧ containsYes "maybe" = false
    ∧ NextState.awaitingCommand 1 ≠ NextState.sessionEnd := by
  refine ⟨rfl, by decide, by decide⟩

/-- C7 (amended): after a successful iteration, an answer containing yes
(case-insensitively) increments the iteration counter and returns to the
command prompt while any other or missing answer ends the session; after
a failed iteration, a missing answer or one containing no ends the
session while any other answer returns to the command prompt with the
counter unchanged. The port of the next iteration after an increment is
one above the current port. -/
theorem C7_continue_prompt (it : Nat) (r : String) :
    (containsYes r = true →
      continue_after_success it (some r) = .awaitingCommand (it + 1))
    ∧ (containsYes r = false →
      continue_after_success it (some r) = .sessionEnd)
    ∧ continue_after_success it none = .sessionEnd
    ∧ (containsNo r = true →
      continue_after_failure it (some r) = .sessionEnd)
    ∧ (containsNo r = false →
      continue_after_failure it (some r) = .awaitingCommand it)
    ∧ continue_after_failure it none = .sessionEnd
    ∧ port_for (it + 1) = port_for it + 1 := by
  refine ⟨?_, ?_, rfl, ?_, ?_, rfl, ?_⟩
  · intro h; simp [continue_after_success, h]
  · intro h; simp [continue_after_success, h]
  · intro h; simp [continue_after_failure, h]
  · intro h; simp [continue_after_failure, h]
  · unfold port_for; omega

/-- C7 witness: a yes after iteration 1 moves to the command prompt with
counter 2; the port of iteration 2 is one above the port of iteration 1,
which is the base port 5000. -/
theorem C7_witness :
    continue_after_success 1 (some "yes") = NextState.awaitingCommand 2
    ∧ port_for 2 = port_for 1 + 1
    ∧ port_for 1 = 5000 :=
  ⟨(C7_continue_prompt 1 "yes").1 (by decide),
   (C7_continue_prompt 1 "yes").2.2.2.2.2.2, by decide⟩

/-- C8 counterexample: with the site of iteration 1 materialized, a
request to a non-root path is answered by the framework not-found error
response, not by the fixed fallback body the claim promises for every
non-root path. -/
theorem C8_counterexample :
    create_flask_app "generated_site_1" siteFS "/about" = HttpResponse.notFound
    ∧ HttpResponse.notFound ≠ HttpResponse.fallback fallbackMessage
    ∧ create_flask_app "generated_site_1" siteFS "/"
        = HttpResponse.ok "<h1>Bakery</h1>" := by
  refine ⟨by decide, by decide, ?_⟩
  rfl

/-- C8 (amended): the app registers only the root route. A root request
returns the site document file, and a request to any other path hits no
registered route and receives the framework not-found error response,
not the fixed fallback body. -/
theorem C8_root_only_route (folder path doc : String) (fs : FS)
    (hp : path ≠ "/")
    (hdoc : lookupFile fs folder "index.html" = some doc) :
    create_flask_app folder fs path = .notFound
    ∧ create_flask_app folder fs path ≠ .fallback fallbackMessage
    ∧ create_flask_app folder fs "/" = .ok doc := by
  refine ⟨?_, ?_, ?_⟩
  · simp [create_flask_app, hp]
  · simp [create_flask_app, hp]
  · simp [create_flask_app, hdoc]

/-- C8 witness: the amended statement at the materialized bakery site. -/
theorem C8_witness :
    create_flask_app "generated_site_1" siteFS "/about" = HttpResponse.notFound
    ∧ create_flask_app "generated_site_1" siteFS "/about"
        ≠ HttpResponse.fallback fallbackMessage
    ∧ create_flask_app "generated_site_1" siteFS "/"
        = HttpResponse.ok "<h1>Bakery</h1>" :=
  C8_root_only_route "generated_site_1" "/about" "<h1>Bakery</h1>" siteFS
    (by decide) (by decide)
